import Mathlib

/-!
Verification development for the `report-h2spec-regressions` GitHub action
(`src/index.mjs`; the TypeScript variants embedded in `src/unnamed/part_000`
and `src/README.md` share the same core logic and additionally guard the
summary lookup).

The program's core is modelled shallowly:

* JavaScript numbers, as this program produces them, are either exact
  integers or `NaN` (`JSNum` below); `parseInt(_, 10)` is modelled by
  `jsParseInt`.
* The JUnit side of `getCurrentResults` is modelled from the parsed
  document's list of `<testsuite>` elements, each carrying its four raw
  attribute strings.  Under fast-xml-parser's default options (no
  `isArray`), `doc.testsuites.testsuite` is `undefined` when the document
  has zero `<testsuite>` children and a plain, non-iterable object when it
  has exactly one — in both cases the `for…of` throws a TypeError
  (`AggOutcome.typeError`); only with two or more children is it an array,
  and the loop is then a fold over the elements in document order.
* The reference extraction regex
  `/[*][*](\d+)[*][*] tests were completed in [*][*](\w+)ms[*][*] with
  [*][*](\d+)[*][*] passed, [*][*](\d+)[*][*] failed and
  [*][*](\d+)[*][*] skipped/g`
  applied via `regex.exec` is modelled by a character-level matcher
  (`matchAt`) tried at every start position from the left
  (`searchSummary`).  For this particular pattern backtracking is
  degenerate: each `(\d+)` is followed by `[*]`, so only the maximal digit
  run can ever continue, and the `(\w+)ms[*][*]` section can only split the
  maximal word run so that exactly two word characters `m`, `s` remain
  before the non-word `*` — hence the deterministic matcher below computes
  the same captures as the regex engine.
* `process.exit` mid-loop is modelled by the driver returning early with
  the corresponding exit code (`processSuites`).

I/O (file reads, the GitHub API, console logging beyond the diagnostic
strings recorded in `RefOutcome`, posting comments and checks) is glue
outside the modelled core.
-/

namespace H2Spec

/-- Model of a JavaScript number as this program produces them: an exact
integer, or NaN (the result of `parseInt` on absent or non-numeric text).
All arithmetic performed on these values is integral, so an `Int` payload
is exact. -/
inductive JSNum where
  | num : Int → JSNum
  | nan : JSNum
  deriving DecidableEq, Repr

/-- JavaScript `+` on numbers: NaN propagates. -/
def JSNum.add : JSNum → JSNum → JSNum
  | .num a, .num b => .num (a + b)
  | _, _ => .nan

/-- JavaScript binary `-` on numbers: NaN propagates. -/
def JSNum.sub : JSNum → JSNum → JSNum
  | .num a, .num b => .num (a - b)
  | _, _ => .nan

/-- Characters treated as whitespace by `parseInt` before the number. -/
def isSpaceChar (c : Char) : Bool :=
  c == ' ' || c == '\t' || c == '\n' || c == '\r'

/-- One step of reading a decimal numeral left to right. -/
def digitStep (a : Nat) (c : Char) : Nat := 10 * a + (c.toNat - 48)

/-- Value of a string of decimal digit characters (most significant first);
this is what `parseInt(_, 10)` computes on a `(\d+)` regex capture. -/
def digitsToNat (cs : List Char) : Nat := cs.foldl digitStep 0

/-- Longest run of characters satisfying `p`, and the rest. -/
def spanChars (p : Char → Bool) : List Char → List Char × List Char
  | [] => ([], [])
  | c :: cs =>
    if p c then
      let r := spanChars p cs
      (c :: r.1, r.2)
    else ([], c :: cs)

/-- Model of JavaScript `parseInt(s, 10)`: skip leading whitespace, accept an
optional sign, then read the longest run of decimal digits, ignoring any
trailing garbage; NaN when no digit is found. -/
def jsParseIntStr (s : String) : JSNum :=
  match s.data.dropWhile isSpaceChar with
  | [] => .nan
  | c :: rest =>
    if c = '-' then
      match spanChars Char.isDigit rest with
      | ([], _) => .nan
      | (ds, _) => .num (-(digitsToNat ds : Int))
    else if c = '+' then
      match spanChars Char.isDigit rest with
      | ([], _) => .nan
      | (ds, _) => .num ((digitsToNat ds : Int))
    else
      match spanChars Char.isDigit (c :: rest) with
      | ([], _) => .nan
      | (ds, _) => .num ((digitsToNat ds : Int))

/-- The program's `parseInt(ts["@_x"], 10)`: a missing attribute is
`undefined`, and `parseInt(undefined, 10)` is NaN. -/
def jsParseInt : Option String → JSNum
  | none => .nan
  | some s => jsParseIntStr s

/-- One `<testsuite>` element of the JUnit document: its four counting
attributes as raw strings, `none` modelling an absent attribute. -/
structure TestSuiteNode where
  tests : Option String
  failures : Option String
  errors : Option String
  skipped : Option String
  deriving DecidableEq, Repr

/-- The `Results` record as the aggregation loop actually computes it:
JavaScript numbers, so NaN can appear in any field. -/
structure ResultsJS where
  total : JSNum
  passed : JSNum
  failed : JSNum
  skipped : JSNum
  deriving DecidableEq, Repr

/-- Body of the `for (const ts of doc.testsuites.testsuite)` loop of
`getCurrentResults`. -/
def aggregateStep (r : ResultsJS) (ts : TestSuiteNode) : ResultsJS :=
  let tests := jsParseInt ts.tests
  let failures := jsParseInt ts.failures
  let errors := jsParseInt ts.errors
  let skipped := jsParseInt ts.skipped
  { total := r.total.add tests
    passed := r.passed.add (tests.sub ((failures.add errors).add skipped))
    failed := r.failed.add (failures.add errors)
    skipped := r.skipped.add skipped }

/-- Outcome of `getCurrentResults`: the aggregated record, or the
TypeError thrown by `for (const ts of doc.testsuites.testsuite)` when that
value is not an array (fast-xml-parser's defaults yield `undefined` for
zero `<testsuite>` children and a plain non-iterable object for exactly
one). -/
inductive AggOutcome where
  | ok : ResultsJS → AggOutcome
  | typeError : AggOutcome
  deriving DecidableEq, Repr

/-- The Report Aggregator `getCurrentResults`, given the parsed document's
list of `<testsuite>` elements.  With zero or one element,
`doc.testsuites.testsuite` is not an array under fast-xml-parser's default
options and the `for…of` throws a TypeError; with two or more it is an
array, and the loop folds the loop body over the groups in document order
starting from all-zero counters. -/
def getCurrentResults (groups : List TestSuiteNode) : AggOutcome :=
  match groups with
  | [] => AggOutcome.typeError
  | [_] => AggOutcome.typeError
  | a :: b :: rest =>
    AggOutcome.ok ((a :: b :: rest).foldl aggregateStep ⟨.num 0, .num 0, .num 0, .num 0⟩)

/-- The `Results` record of the data model: four non-negative integers. -/
structure Results where
  total : Nat
  passed : Nat
  failed : Nat
  skipped : Nat
  deriving DecidableEq, Repr

/-- Body of the per-suite comparison loop (the Regression Classifier):
given the suite name and the two records, produce the verdict line pushed
onto `outputLines` and the "is a regression" flag.  The JavaScript leaves
`diff` undefined when all three comparisons fail, which cannot happen for
integer-valued fields; the final `else` below is that third, `+`-producing
branch. -/
def classifySuite (suite : String) (current reference : Results) : String × Bool :=
  if current.failed > reference.failed then
    ("Regression detected in " ++ suite ++ ": " ++ toString current.failed
       ++ " > " ++ toString reference.failed, true)
  else
    let diff :=
      if current.failed = reference.failed then "unchanged"
      else if current.failed < reference.failed then
        "-" ++ toString (reference.failed - current.failed)
      else "+" ++ toString (current.failed - reference.failed)
    ("No regression in " ++ suite ++ ": failed count " ++ diff ++ " ("
       ++ toString current.passed ++ " passed, " ++ toString current.failed
       ++ " failed)", false)

/-- Match a literal sequence of characters at the head of the input,
returning the remainder on success. -/
def lit : List Char → List Char → Option (List Char)
  | [], cs => some cs
  | _ :: _, [] => none
  | l :: ls, c :: cs => if c = l then lit ls cs else none

/-- Match `(\d+)` followed by a non-digit (or the end): the maximal digit
run, which must be non-empty.  Returns the capture and the remainder. -/
def matchDigits (cs : List Char) : Option (List Char × List Char) :=
  match spanChars Char.isDigit cs with
  | ([], _) => none
  | (ds, rest) => some (ds, rest)

/-- JavaScript `\w` (no Unicode flag): ASCII letters, digits, underscore. -/
def isWordChar (c : Char) : Bool := c.isAlphanum || c == '_'

/-- Match `(\w+)ms` followed by the non-word `[*]`: the maximal word run
must end in `ms` with at least one word character before it; the capture is
that run minus the trailing `ms`.  (Only this split of the run can continue
the pattern, since a shorter group would leave a word character where the
regex requires `*`.) -/
def matchWordMs (cs : List Char) : Option (List Char × List Char) :=
  let r := spanChars isWordChar cs
  match r.1.reverse with
  | 's' :: 'm' :: c :: g => some ((c :: g).reverse, r.2)
  | _ => none

/-- Captures of the reference-summary regex: groups 1-5, where group 2 is
the discarded duration token. -/
abbrev SummaryCaps :=
  List Char × List Char × List Char × List Char × List Char

/-- Attempt to match the reference-summary regex at the start of the
input.  The pattern is deterministic here (see the file header), so this
computes exactly the regex engine's captures at this position. -/
def matchAt (cs : List Char) : Option SummaryCaps :=
  (lit ("**".data) cs).bind fun cs =>
  (matchDigits cs).bind fun r1 =>
  (lit ("** tests were completed in **".data) r1.2).bind fun cs =>
  (matchWordMs cs).bind fun r2 =>
  (lit ("** with **".data) r2.2).bind fun cs =>
  (matchDigits cs).bind fun r3 =>
  (lit ("** passed, **".data) r3.2).bind fun cs =>
  (matchDigits cs).bind fun r4 =>
  (lit ("** failed and **".data) r4.2).bind fun cs =>
  (matchDigits cs).bind fun r5 =>
  (lit ("** skipped".data) r5.2).map fun _ =>
  (r1.1, r2.1, r3.1, r4.1, r5.1)

/-- `regex.exec` on a fresh regex: unanchored search, i.e. try every start
position from the left and return the first successful match's captures.
(The pattern starts with two literal `*`, so it never matches the empty
remainder; the `[]` case is therefore `none`.) -/
def searchSummary : List Char → Option SummaryCaps
  | [] => none
  | c :: rest =>
    match matchAt (c :: rest) with
    | some r => some r
    | none => searchSummary rest

/-- Apply the summary regex to a summary string and read groups 1, 3, 4, 5
back as base-10 integers (`parseInt` on a non-empty digit capture is its
decimal value, see `jsParseIntStr_digitRun`). -/
def extractResults (summary : String) : Option Results :=
  match searchSummary summary.data with
  | none => none
  | some (d1, _, d3, d4, d5) =>
    some ⟨digitsToNat d1, digitsToNat d3, digitsToNat d4, digitsToNat d5⟩

/-- Character for one decimal digit. -/
def digitChar (d : Nat) : Char := Char.ofNat (48 + d)

/-- Decimal digits of a natural number, most significant first (canonical
form, no leading zeros); structural recursion on a fuel bound so that the
definition reduces computationally.  Any `fuel > n` gives the digits of
`n`. -/
def natDigitsFuel : Nat → Nat → List Char
  | 0, _ => []
  | fuel + 1, n =>
    if n < 10 then [digitChar n]
    else natDigitsFuel fuel (n / 10) ++ [digitChar (n % 10)]

/-- Canonical decimal digits of a natural number. -/
def natDigits (n : Nat) : List Char := natDigitsFuel (n + 1) n

/-- Canonical decimal rendering of a non-negative integer — what the
JavaScript template literal `${n}` produces for the integer counters. -/
def natToStr (n : Nat) : String := String.mk (natDigits n)

/-- Modelled from the spec: the fixed summary sentence
`**<total>** tests were completed in **<duration>ms** with **<passed>**
passed, **<failed>** failed and **<skipped>** skipped` (spec section 6's
cross-invocation wire format).  The producer of this sentence is a prior
invocation of the reporting pipeline and is not part of `src/`; this
definition follows the spec's words and serves as the encoder side of the
round-trip claims. -/
def formatSummary (r : Results) (dur : String) : String :=
  "**" ++ natToStr r.total ++ "** tests were completed in **" ++ dur
    ++ "ms** with **" ++ natToStr r.passed ++ "** passed, **"
    ++ natToStr r.failed ++ "** failed and **" ++ natToStr r.skipped
    ++ "** skipped"

/-- One check run of the reference ref, as the program consumes it: a name
and an optional `output.summary` text (`none` models a null or missing
summary). -/
structure CheckRun where
  name : String
  summary : Option String
  deriving DecidableEq, Repr

/-- What the JavaScript template `${regex}` prints for the summary regex
(used verbatim in the mismatch diagnostic). -/
def regexSource : String :=
  "/[*][*](\\d+)[*][*] tests were completed in [*][*](\\w+)ms[*][*] with [*][*](\\d+)[*][*] passed, [*][*](\\d+)[*][*] failed and [*][*](\\d+)[*][*] skipped/g"

/-- `JSON.stringify` of a check name, as used in the "no check found" log
line (escape sequences inside the name are not modelled; the names this
program receives contain none). -/
def jsonQuote (s : String) : String := "\"" ++ s ++ "\""

/-- Outcome of `getReferenceResults` for one suite: a parsed record, or a
`process.exit(0)` (missing check run, soft stop), or a `process.exit(1)`
with its diagnostic log lines (missing or malformed summary). -/
inductive RefOutcome where
  | ok : Results → RefOutcome
  | softStop : String → RefOutcome
  | fatal : List String → RefOutcome
  deriving DecidableEq, Repr

/-- The Reference Extractor `getReferenceResults` (the guarded TypeScript
variant): find the first check run named like the suite — none means a
soft stop with success —, require a truthy summary text (absent or empty
is fatal), run the regex over it (no match is fatal, logging the pattern
and the offending text), and read the captures back as integers. -/
def getReferenceResults (checks : List CheckRun) (checkName : String) : RefOutcome :=
  match checks.find? (fun c => c.name == checkName) with
  | none => .softStop ("No " ++ jsonQuote checkName ++ " check found")
  | some check =>
    match check.summary with
    | none => .fatal ["No summary found for check " ++ checkName]
    | some s =>
      if s = "" then .fatal ["No summary found for check " ++ checkName]
      else
        match extractResults s with
        | none =>
          .fatal ["Output summary didn\x27t match expected structure",
                  "Structure was: " ++ regexSource,
                  "Output was:\n" ++ s]
        | some r => .ok r

/-- The per-suite loop of the driver, with each suite's aggregated current
`Results` supplied (the JUnit side is modelled separately by
`getCurrentResults`; a well-formed report of at least two groups yields an
integer-valued record).  Mirrors the source: a missing reference
check exits the whole process with code 0 on the spot, a bad summary with
code 1, otherwise the verdict line is accumulated and the regression flag
OR-ed; after the last suite the exit code is 1 exactly when some suite
regressed.  Returns the exit code and the verdict lines accumulated up to
termination. -/
def processSuites (checks : List CheckRun) :
    List (String × Results) → List String → Bool → Nat × List String
  | [], lines, flag => (if flag then 1 else 0, lines)
  | (name, current) :: rest, lines, flag =>
    match getReferenceResults checks name with
    | .softStop _ => (0, lines)
    | .fatal _ => (1, lines)
    | .ok reference =>
      let r := classifySuite name current reference
      processSuites checks rest (lines ++ [r.1]) (flag || r.2)

/-- Whole-run driver: loop over the suites starting from an empty line
accumulator and a cleared regression flag. -/
def runAll (checks : List CheckRun) (suites : List (String × Results)) :
    Nat × List String :=
  processSuites checks suites [] false

/-- One suite of the classifier-level driver: its name and its two already
obtained records. -/
structure SuiteData where
  name : String
  current : Results
  reference : Results
  deriving DecidableEq, Repr

/-- Accumulation of the comparison loop over suites whose reference lookups
all succeed: walk the suites in input order, appending each verdict line to
`outputLines` and OR-ing the per-suite regression flag into
`regressionsDetected`. -/
def suiteGo : List SuiteData → List String → Bool → List String × Bool
  | [], lines, flag => (lines, flag)
  | sd :: rest, lines, flag =>
    let r := classifySuite sd.name sd.current sd.reference
    suiteGo rest (lines ++ [r.1]) (flag || r.2)

/-- The comparison loop started from an empty accumulator and a cleared
flag. -/
def suiteFold (suites : List SuiteData) : List String × Bool :=
  suiteGo suites [] false

/-- End of the driver on the classifier level: exit code 1 when any suite
regressed, else 0, together with the verdict lines. -/
def runSuites (suites : List SuiteData) : Nat × List String :=
  ((if (suiteFold suites).2 then 1 else 0), (suiteFold suites).1)

/-! ### Helper lemmas -/

theorem lit_self_append (l rest : List Char) : lit l (l ++ rest) = some rest := by
  induction l with
  | nil => rfl
  | cons c cs ih => simp [lit, ih]

theorem spanChars_eq_append (p : Char → Bool) (xs ys : List Char)
    (hx : ∀ c ∈ xs, p c = true)
    (hy : ∀ c, ys.head? = some c → p c = false) :
    spanChars p (xs ++ ys) = (xs, ys) := by
  induction xs with
  | nil =>
    cases ys with
    | nil => rfl
    | cons y ys =>
      have hpy := hy y rfl
      simp [spanChars, hpy]
  | cons x xs ih =>
    have hpx : p x = true := hx x (by simp)
    have hxs : spanChars p (xs ++ ys) = (xs, ys) :=
      ih (fun c hc => hx c (by simp [hc]))
    simp [spanChars, hpx, hxs]

theorem digitChar_isDigit {d : Nat} (h : d < 10) : (digitChar d).isDigit = true := by
  interval_cases d <;> decide

theorem digitChar_toNat {d : Nat} (h : d < 10) : (digitChar d).toNat - 48 = d := by
  interval_cases d <;> decide

theorem natDigitsFuel_mem_isDigit :
    ∀ fuel n, n < fuel → ∀ c ∈ natDigitsFuel fuel n, c.isDigit = true := by
  intro fuel
  induction fuel with
  | zero => intro n h; omega
  | succ fuel ih =>
    intro n h c hc
    by_cases h10 : n < 10
    · simp [natDigitsFuel, h10] at hc
      subst hc
      exact digitChar_isDigit h10
    · simp [natDigitsFuel, h10] at hc
      rcases hc with hc | hc
      · have hdiv : n / 10 < n := Nat.div_lt_self (by omega) (by omega)
        exact ih (n / 10) (by omega) c hc
      · subst hc
        exact digitChar_isDigit (Nat.mod_lt n (by omega))

theorem natDigitsFuel_ne_nil : ∀ fuel n, n < fuel → natDigitsFuel fuel n ≠ [] := by
  intro fuel
  induction fuel with
  | zero => intro n h; omega
  | succ fuel _ =>
    intro n _
    by_cases h10 : n < 10 <;> simp [natDigitsFuel, h10]

theorem natDigitsFuel_foldl :
    ∀ fuel n, n < fuel → ∀ a,
      (natDigitsFuel fuel n).foldl digitStep a
        = a * 10 ^ (natDigitsFuel fuel n).length + n := by
  intro fuel
  induction fuel with
  | zero => intro n h; omega
  | succ fuel ih =>
    intro n h a
    by_cases h10 : n < 10
    · simp [natDigitsFuel, h10, digitStep, digitChar_toNat h10]
      omega
    · have hdiv : n / 10 < n := Nat.div_lt_self (by omega) (by omega)
      have hmod : n % 10 < 10 := Nat.mod_lt n (by omega)
      have hrec := ih (n / 10) (by omega) a
      simp only [natDigitsFuel, h10, if_false, List.foldl_append, List.length_append,
        List.foldl_cons, List.foldl_nil, List.length_cons, List.length_nil, hrec]
      simp only [digitStep, digitChar_toNat hmod]
      rw [pow_succ, ← mul_assoc]
      have hdm := Nat.div_add_mod n 10
      generalize a * 10 ^ (natDigitsFuel fuel (n / 10)).length = B
      omega

theorem natDigits_mem_isDigit (n : Nat) : ∀ c ∈ natDigits n, c.isDigit = true :=
  natDigitsFuel_mem_isDigit (n + 1) n (by omega)

theorem natDigits_ne_nil (n : Nat) : natDigits n ≠ [] :=
  natDigitsFuel_ne_nil (n + 1) n (by omega)

theorem digitsToNat_natDigits (n : Nat) : digitsToNat (natDigits n) = n := by
  have h := natDigitsFuel_foldl (n + 1) n (by omega) 0
  simpa [digitsToNat, natDigits] using h

theorem matchDigits_digits_cons (ds : List Char) (c : Char) (rest : List Char)
    (h1 : ds ≠ []) (h2 : ∀ x ∈ ds, x.isDigit = true) (h3 : c.isDigit = false) :
    matchDigits (ds ++ c :: rest) = some (ds, c :: rest) := by
  have hspan : spanChars Char.isDigit (ds ++ c :: rest) = (ds, c :: rest) :=
    spanChars_eq_append _ _ _ h2
      (fun x hx => by
        have hxc : x = c := by simpa using hx.symm
        subst hxc; exact h3)
  cases ds with
  | nil => exact absurd rfl h1
  | cons d ds =>
    simp only [List.cons_append] at hspan
    simp [matchDigits, hspan]

theorem matchWordMs_word_cons (w : List Char) (c : Char) (rest : List Char)
    (h1 : w ≠ []) (h2 : ∀ x ∈ w, isWordChar x = true) (h3 : isWordChar c = false) :
    matchWordMs (w ++ 'm' :: 's' :: c :: rest) = some (w, c :: rest) := by
  have hx : ∀ x ∈ w ++ ['m', 's'], isWordChar x = true := by
    intro x hxm
    rcases List.mem_append.mp hxm with hxw | hxms
    · exact h2 x hxw
    · have hms : x = 'm' ∨ x = 's' := by simpa using hxms
      rcases hms with h | h <;> (subst h; decide)
  have hspan : spanChars isWordChar ((w ++ ['m', 's']) ++ c :: rest)
      = (w ++ ['m', 's'], c :: rest) :=
    spanChars_eq_append _ _ _ hx
      (fun x hxx => by
        have hxc : x = c := by simpa using hxx.symm
        subst hxc; exact h3)
  have hassoc : w ++ 'm' :: 's' :: c :: rest = (w ++ ['m', 's']) ++ c :: rest := by
    simp
  obtain ⟨d, w', hw⟩ : ∃ d w', w.reverse = d :: w' := by
    cases hr : w.reverse with
    | nil =>
      exact absurd (by simpa using congrArg List.reverse hr) h1
    | cons d w' => exact ⟨d, w', rfl⟩
  have hrev : (w ++ ['m', 's']).reverse = 's' :: 'm' :: d :: w' := by
    simp [List.reverse_append, hw]
  have hback : (d :: w').reverse = w := by
    rw [← hw, List.reverse_reverse]
  rw [hassoc, matchWordMs]
  simp only [hspan, hrev, hback]

theorem searchSummary_eq_matchAt {cs : List Char} {r : SummaryCaps}
    (h : matchAt cs = some r) : searchSummary cs = some r := by
  cases cs with
  | nil => simp [matchAt, lit] at h
  | cons c rest => simp [searchSummary, h]

theorem searchSummary_isSome_append (a b : List Char) (r : SummaryCaps)
    (h : matchAt b = some r) : (searchSummary (a ++ b)).isSome = true := by
  induction a with
  | nil => simp [searchSummary_eq_matchAt h]
  | cons c a ih =>
    rw [List.cons_append, searchSummary]
    cases hm : matchAt (c :: (a ++ b)) with
    | some r' => simp
    | none => simpa using ih

theorem matchAt_sentence (t p f s : Nat) (durData post : List Char)
    (hne : durData ≠ []) (hw : ∀ c ∈ durData, isWordChar c = true) :
    matchAt (("**".data) ++ natDigits t ++ ("** tests were completed in **".data)
        ++ durData ++ ("ms** with **".data) ++ natDigits p
        ++ ("** passed, **".data) ++ natDigits f ++ ("** failed and **".data)
        ++ natDigits s ++ ("** skipped".data) ++ post)
      = some (natDigits t, durData, natDigits p, natDigits f, natDigits s) := by
  simp only [List.append_assoc]
  unfold matchAt
  rw [lit_self_append]
  simp only [Option.some_bind]
  rw [List.cons_append,
    matchDigits_digits_cons (natDigits t) '*' _ (natDigits_ne_nil t)
      (natDigits_mem_isDigit t) (by decide)]
  simp only [Option.some_bind]
  rw [← List.cons_append, lit_self_append]
  simp only [Option.some_bind]
  rw [List.cons_append, List.cons_append, List.cons_append,
    matchWordMs_word_cons durData '*' _ hne hw (by decide)]
  simp only [Option.some_bind]
  rw [← List.cons_append, lit_self_append]
  simp only [Option.some_bind]
  rw [List.cons_append,
    matchDigits_digits_cons (natDigits p) '*' _ (natDigits_ne_nil p)
      (natDigits_mem_isDigit p) (by decide)]
  simp only [Option.some_bind]
  rw [← List.cons_append, lit_self_append]
  simp only [Option.some_bind]
  rw [List.cons_append,
    matchDigits_digits_cons (natDigits f) '*' _ (natDigits_ne_nil f)
      (natDigits_mem_isDigit f) (by decide)]
  simp only [Option.some_bind]
  rw [← List.cons_append, lit_self_append]
  simp only [Option.some_bind]
  rw [List.cons_append,
    matchDigits_digits_cons (natDigits s) '*' _ (natDigits_ne_nil s)
      (natDigits_mem_isDigit s) (by decide)]
  simp only [Option.some_bind]
  rw [← List.cons_append, lit_self_append]
  rfl

theorem formatSummary_data (r : Results) (dur : String) :
    (formatSummary r dur).data
      = ("**".data) ++ natDigits r.total ++ ("** tests were completed in **".data)
        ++ dur.data ++ ("ms** with **".data) ++ natDigits r.passed
        ++ ("** passed, **".data) ++ natDigits r.failed ++ ("** failed and **".data)
        ++ natDigits r.skipped ++ ("** skipped".data) := by
  simp [formatSummary, String.data_append, natToStr]

theorem extract_format (r : Results) (dur : String)
    (h1 : dur.data ≠ []) (h2 : ∀ c ∈ dur.data, isWordChar c = true) :
    extractResults (formatSummary r dur) = some r := by
  have hm := matchAt_sentence r.total r.passed r.failed r.skipped dur.data [] h1 h2
  simp only [List.append_nil] at hm
  have hdata := formatSummary_data r dur
  have hsearch : searchSummary (formatSummary r dur).data
      = some (natDigits r.total, dur.data, natDigits r.passed, natDigits r.failed,
          natDigits r.skipped) := by
    rw [hdata]
    exact searchSummary_eq_matchAt hm
  rw [extractResults, hsearch]
  simp [digitsToNat_natDigits]


theorem classifySuite_flag (suite : String) (cur ref : Results) :
    (classifySuite suite cur ref).2 = decide (ref.failed < cur.failed) := by
  by_cases h : cur.failed > ref.failed <;> simp [classifySuite, h]

theorem suiteGo_flag :
    ∀ (l : List SuiteData) (lines : List String) (flag : Bool),
      (suiteGo l lines flag).2
        = (flag || l.any fun sd => (classifySuite sd.name sd.current sd.reference).2) := by
  intro l
  induction l with
  | nil => intro lines flag; simp [suiteGo]
  | cons sd rest ih =>
    intro lines flag
    simp [suiteGo, ih, Bool.or_assoc]

theorem any_eq_of_perm {α : Type} {l l' : List α} (p : α → Bool) (h : l.Perm l') :
    l.any p = l'.any p := by
  rw [Bool.eq_iff_iff, List.any_eq_true, List.any_eq_true]
  constructor
  · rintro ⟨x, hx, hp⟩; exact ⟨x, h.mem_iff.mp hx, hp⟩
  · rintro ⟨x, hx, hp⟩; exact ⟨x, h.mem_iff.mpr hx, hp⟩

theorem jsParseIntStr_digitRun (ds : List Char)
    (h1 : ds ≠ []) (h2 : ∀ c ∈ ds, c.isDigit = true) :
    jsParseIntStr (String.mk ds) = JSNum.num (digitsToNat ds) := by
  cases ds with
  | nil => exact absurd rfl h1
  | cons d ds =>
    have hd : d.isDigit = true := h2 d (by simp)
    have hsp : isSpaceChar d = false := by
      by_contra hq
      have hx : isSpaceChar d = true := by simpa using hq
      simp only [isSpaceChar, Bool.or_eq_true, beq_iff_eq] at hx
      rcases hx with ((rfl | rfl) | rfl) | rfl <;> simp at hd
    have hminus : ¬ d = '-' := by rintro rfl; simp at hd
    have hplus : ¬ d = '+' := by rintro rfl; simp at hd
    have hspan : spanChars Char.isDigit (d :: ds) = (d :: ds, []) := by
      have := spanChars_eq_append Char.isDigit (d :: ds) [] h2
        (fun c hc => by simp at hc)
      simpa using this
    simp [jsParseIntStr, List.dropWhile_cons, hsp, hminus, hplus, hspan]

theorem JSNum.add_nan (a : JSNum) : a.add JSNum.nan = JSNum.nan := by
  cases a <;> rfl

theorem JSNum.nan_add (a : JSNum) : JSNum.nan.add a = JSNum.nan := rfl

theorem JSNum.nan_sub (a : JSNum) : JSNum.nan.sub a = JSNum.nan := rfl

theorem aggregate_keeps_nan :
    ∀ (gs : List TestSuiteNode) (acc : ResultsJS),
      acc.total = JSNum.nan → acc.passed = JSNum.nan →
      (gs.foldl aggregateStep acc).total = JSNum.nan
        ∧ (gs.foldl aggregateStep acc).passed = JSNum.nan := by
  intro gs
  induction gs with
  | nil => intro acc h1 h2; exact ⟨h1, h2⟩
  | cons ts rest ih =>
    intro acc h1 h2
    refine ih _ ?_ ?_ <;> simp [aggregateStep, h1, h2, JSNum.nan_add]

theorem aggregate_invariant :
    ∀ (gs : List TestSuiteNode),
      (∀ ts ∈ gs, ∃ t f e s : Nat,
        jsParseInt ts.tests = JSNum.num t ∧ jsParseInt ts.failures = JSNum.num f
          ∧ jsParseInt ts.errors = JSNum.num e ∧ jsParseInt ts.skipped = JSNum.num s
          ∧ f + e + s ≤ t) →
      ∀ T P F S : Int, T = P + F + S →
        ∃ T2 P2 F2 S2 : Int,
          gs.foldl aggregateStep ⟨JSNum.num T, JSNum.num P, JSNum.num F, JSNum.num S⟩
              = ⟨JSNum.num T2, JSNum.num P2, JSNum.num F2, JSNum.num S2⟩
            ∧ T2 = P2 + F2 + S2 := by
  intro gs
  induction gs with
  | nil => intro _ T P F S h; exact ⟨T, P, F, S, rfl, h⟩
  | cons ts rest ih =>
    intro h T P F S heq
    obtain ⟨t, f, e, s, ht, hf, he, hs, _⟩ := h ts (by simp)
    have hstep : aggregateStep ⟨JSNum.num T, JSNum.num P, JSNum.num F, JSNum.num S⟩ ts
        = ⟨JSNum.num (T + t), JSNum.num (P + (t - (f + e + s))),
            JSNum.num (F + (f + e)), JSNum.num (S + s)⟩ := by
      simp [aggregateStep, ht, hf, he, hs, JSNum.add, JSNum.sub]
    rw [List.foldl_cons, hstep]
    exact ih (fun q hq => h q (by simp [hq])) _ _ _ _ (by omega)

theorem processSuites_stop (checks : List CheckRun) (nm : String) (cur : Results)
    (post : List (String × Results)) (code : Nat)
    (hstop : (∃ lg, getReferenceResults checks nm = RefOutcome.softStop lg ∧ code = 0)
      ∨ (∃ lgs, getReferenceResults checks nm = RefOutcome.fatal lgs ∧ code = 1)) :
    ∀ pre : List (String × Results),
      (∀ p ∈ pre, ∃ r, getReferenceResults checks p.1 = RefOutcome.ok r) →
      ∀ (lines : List String) (flag : Bool),
        processSuites checks (pre ++ (nm, cur) :: post) lines flag
          = (code, (processSuites checks pre lines flag).2) := by
  intro pre
  induction pre with
  | nil =>
    intro _ lines flag
    rcases hstop with ⟨lg, h, hc⟩ | ⟨lgs, h, hc⟩ <;> subst hc <;>
      simp [processSuites, h]
  | cons p pre ih =>
    intro hpre lines flag
    obtain ⟨r, hr⟩ := hpre p (by simp)
    obtain ⟨pnm, pcur⟩ := p
    simp only [List.cons_append, processSuites, hr]
    exact ih (fun q hq => hpre q (by simp [hq])) _ _

theorem processSuites_len (checks : List CheckRun) :
    ∀ pre : List (String × Results),
      (∀ p ∈ pre, ∃ r, getReferenceResults checks p.1 = RefOutcome.ok r) →
      ∀ (lines : List String) (flag : Bool),
        (processSuites checks pre lines flag).2.length = lines.length + pre.length := by
  intro pre
  induction pre with
  | nil => intro _ lines flag; simp [processSuites]
  | cons p pre ih =>
    intro hpre lines flag
    obtain ⟨r, hr⟩ := hpre p (by simp)
    obtain ⟨pnm, pcur⟩ := p
    simp only [processSuites, hr]
    rw [ih (fun q hq => hpre q (by simp [hq])) _ _]
    simp
    omega


/-! ### Claims -/

/-- Claim C1: the Regression Classifier flags a regression iff
`current.failed > reference.failed` (strictly); an equal failure count is
never flagged; and, holding the reference fixed, increasing
`current.failed` never changes a regression verdict back to
no-regression. -/
theorem c1_threshold_monotone (s1 s2 : String) (cur cur2 ref : Results)
    (hmono : cur.failed ≤ cur2.failed) :
    ((classifySuite s1 cur ref).2 = true ↔ ref.failed < cur.failed)
    ∧ (cur.failed = ref.failed → (classifySuite s1 cur ref).2 = false)
    ∧ ((classifySuite s1 cur ref).2 = true → (classifySuite s2 cur2 ref).2 = true) := by
  refine ⟨?_, ?_, ?_⟩ <;> simp [classifySuite_flag] <;> omega

/-- Witness for C1 at the spec's example records. -/
theorem c1_threshold_monotone_witness :
    ((classifySuite "h2spec" ⟨94, 70, 24, 0⟩ ⟨94, 72, 22, 0⟩).2 = true ↔ 22 < 24)
    ∧ ((24 : Nat) = 22 → (classifySuite "h2spec" ⟨94, 70, 24, 0⟩ ⟨94, 72, 22, 0⟩).2 = false)
    ∧ ((classifySuite "h2spec" ⟨94, 70, 24, 0⟩ ⟨94, 72, 22, 0⟩).2 = true →
        (classifySuite "other" ⟨94, 69, 25, 0⟩ ⟨94, 72, 22, 0⟩).2 = true) :=
  c1_threshold_monotone "h2spec" "other" ⟨94, 70, 24, 0⟩ ⟨94, 69, 25, 0⟩ ⟨94, 72, 22, 0⟩
    (by decide)

/-- Claim C2: for every well-formed report (each group's four attributes
parse as non-negative integers with failures + errors + skipped ≤ tests),
every record the Report Aggregator returns consists of integers satisfying
total = passed + failed + skipped.  (Documents with fewer than two groups
throw a TypeError before aggregating and return no record at all, see the
C6 theorem.) -/
theorem c2_aggregator_invariant (groups : List TestSuiteNode)
    (h : ∀ ts ∈ groups, ∃ t f e s : Nat,
      jsParseInt ts.tests = JSNum.num t ∧ jsParseInt ts.failures = JSNum.num f
        ∧ jsParseInt ts.errors = JSNum.num e ∧ jsParseInt ts.skipped = JSNum.num s
        ∧ f + e + s ≤ t)
    (r : ResultsJS) (hok : getCurrentResults groups = AggOutcome.ok r) :
    ∃ T P F S : Int,
      r = ⟨JSNum.num T, JSNum.num P, JSNum.num F, JSNum.num S⟩
        ∧ T = P + F + S := by
  rcases groups with _ | ⟨a, _ | ⟨b, rest⟩⟩
  · simp [getCurrentResults] at hok
  · simp [getCurrentResults] at hok
  · simp only [getCurrentResults, AggOutcome.ok.injEq] at hok
    obtain ⟨T, P, F, S, hfold, heq⟩ :=
      aggregate_invariant (a :: b :: rest) h 0 0 0 0 (by ring)
    exact ⟨T, P, F, S, by rw [← hok, hfold], heq⟩

/-- Witness for C2 on a two-group report. -/
theorem c2_aggregator_invariant_witness :
    ∃ T P F S : Int,
      ResultsJS.mk (JSNum.num 14) (JSNum.num 8) (JSNum.num 3) (JSNum.num 3)
          = ⟨JSNum.num T, JSNum.num P, JSNum.num F, JSNum.num S⟩
        ∧ T = P + F + S :=
  c2_aggregator_invariant
    [⟨some "10", some "2", some "1", some "3"⟩, ⟨some "4", some "0", some "0", some "0"⟩]
    (by
      intro ts hts
      simp only [List.mem_cons, List.mem_singleton, List.not_mem_nil, or_false] at hts
      rcases hts with rfl | rfl
      · exact ⟨10, 2, 1, 3, rfl, rfl, rfl, rfl, by omega⟩
      · exact ⟨4, 0, 0, 0, rfl, rfl, rfl, rfl, by omega⟩)
    (ResultsJS.mk (JSNum.num 14) (JSNum.num 8) (JSNum.num 3) (JSNum.num 3))
    rfl

/-- Claim C3: the run as a whole is a regression iff some suite is a
regression (an OR over the suites, invariant under permutation of the
suite list), and the exit code is 0 exactly when no suite regressed. -/
theorem c3_overall_or (l l2 : List SuiteData) (hperm : l.Perm l2) :
    ((suiteFold l).2 = true
        ↔ ∃ sd ∈ l, (classifySuite sd.name sd.current sd.reference).2 = true)
    ∧ (suiteFold l).2 = (suiteFold l2).2
    ∧ ((runSuites l).1 = 0
        ↔ ¬ ∃ sd ∈ l, (classifySuite sd.name sd.current sd.reference).2 = true) := by
  have hl : (suiteFold l).2
      = l.any fun sd => (classifySuite sd.name sd.current sd.reference).2 := by
    simpa using suiteGo_flag l [] false
  have hl2 : (suiteFold l2).2
      = l2.any fun sd => (classifySuite sd.name sd.current sd.reference).2 := by
    simpa using suiteGo_flag l2 [] false
  refine ⟨?_, ?_, ?_⟩
  · rw [hl, List.any_eq_true]
  · rw [hl, hl2]; exact any_eq_of_perm _ hperm
  · have he : (runSuites l).1 = if (suiteFold l).2 then 1 else 0 := rfl
    rw [he, hl, ← List.any_eq_true]
    cases hany : l.any fun sd => (classifySuite sd.name sd.current sd.reference).2 <;>
      simp [hany]

/-- Witness for C3 on a two-suite list and its swap. -/
theorem c3_overall_or_witness :
    ((suiteFold [SuiteData.mk "a" (Results.mk 1 0 1 0) (Results.mk 1 1 0 0), SuiteData.mk "b" (Results.mk 1 1 0 0) (Results.mk 1 1 0 0)]).2 = true
        ↔ ∃ sd ∈ [SuiteData.mk "a" (Results.mk 1 0 1 0) (Results.mk 1 1 0 0), SuiteData.mk "b" (Results.mk 1 1 0 0) (Results.mk 1 1 0 0)],
            (classifySuite sd.name sd.current sd.reference).2 = true)
    ∧ (suiteFold [SuiteData.mk "a" (Results.mk 1 0 1 0) (Results.mk 1 1 0 0), SuiteData.mk "b" (Results.mk 1 1 0 0) (Results.mk 1 1 0 0)]).2
        = (suiteFold [SuiteData.mk "b" (Results.mk 1 1 0 0) (Results.mk 1 1 0 0), SuiteData.mk "a" (Results.mk 1 0 1 0) (Results.mk 1 1 0 0)]).2
    ∧ ((runSuites [SuiteData.mk "a" (Results.mk 1 0 1 0) (Results.mk 1 1 0 0), SuiteData.mk "b" (Results.mk 1 1 0 0) (Results.mk 1 1 0 0)]).1 = 0
        ↔ ¬ ∃ sd ∈ [SuiteData.mk "a" (Results.mk 1 0 1 0) (Results.mk 1 1 0 0), SuiteData.mk "b" (Results.mk 1 1 0 0) (Results.mk 1 1 0 0)],
            (classifySuite sd.name sd.current sd.reference).2 = true) :=
  c3_overall_or
    [SuiteData.mk "a" (Results.mk 1 0 1 0) (Results.mk 1 1 0 0), SuiteData.mk "b" (Results.mk 1 1 0 0) (Results.mk 1 1 0 0)]
    [SuiteData.mk "b" (Results.mk 1 1 0 0) (Results.mk 1 1 0 0), SuiteData.mk "a" (Results.mk 1 0 1 0) (Results.mk 1 1 0 0)]
    (List.Perm.swap _ _ _)

/-- Claim C6 (code bug): a document whose collection holds zero test-group
nodes does NOT aggregate to the all-zero record as the claim states.
Under fast-xml-parser's default options such a document parses so that
`doc.testsuites.testsuite` is `undefined`, the `for…of` throws a
TypeError, and `getCurrentResults` never returns a record; the spec's
zero-group behaviour is the evident intent and the unguarded iteration a
slip.  This theorem evaluates the aggregator at the failing input. -/
theorem c6_zero_groups_type_error :
    getCurrentResults [] = AggOutcome.typeError := rfl


theorem string_eq_of_data {a b : String} (h : a.data = b.data) : a = b := by
  cases a; cases b; exact congrArg String.mk h

/-- Claim C7: the verdict line is exactly
`Regression detected in <suite>: <current.failed> > <reference.failed>` on a
regression, and exactly `No regression in <suite>: failed count <diff>
(<current.passed> passed, <current.failed> failed)` otherwise, with
`<diff>` being `unchanged` on equal failure counts and
`-<reference.failed - current.failed>` when current has fewer. -/
theorem c7_verdict_lines (suite : String) (cur ref : Results) :
    (ref.failed < cur.failed →
      (classifySuite suite cur ref).1
        = "Regression detected in " ++ suite ++ ": " ++ toString cur.failed
            ++ " > " ++ toString ref.failed)
    ∧ (cur.failed = ref.failed →
      (classifySuite suite cur ref).1
        = "No regression in " ++ suite ++ ": failed count unchanged ("
            ++ toString cur.passed ++ " passed, " ++ toString cur.failed
            ++ " failed)")
    ∧ (cur.failed < ref.failed →
      (classifySuite suite cur ref).1
        = "No regression in " ++ suite ++ ": failed count -"
            ++ toString (ref.failed - cur.failed) ++ " ("
            ++ toString cur.passed ++ " passed, " ++ toString cur.failed
            ++ " failed)") := by
  refine ⟨?_, ?_, ?_⟩ <;> intro h
  · simp [classifySuite, h]
  · have hngt : ¬ cur.failed > ref.failed := by omega
    simp only [classifySuite, hngt, if_false, h, if_pos rfl, ite_true, ite_false]
    apply string_eq_of_data
    simp [String.data_append]
  · have hngt : ¬ cur.failed > ref.failed := by omega
    have hne : ¬ cur.failed = ref.failed := by omega
    simp only [classifySuite, hngt, hne, h, if_false, if_true, ite_true, ite_false]
    apply string_eq_of_data
    simp [String.data_append]

/-- Witness for C7: one concrete instance per verdict shape. -/
theorem c7_verdict_lines_witness :
    ((classifySuite "h2spec" ⟨94, 70, 24, 0⟩ ⟨94, 72, 22, 0⟩).1
        = "Regression detected in " ++ "h2spec" ++ ": " ++ toString (24 : Nat)
            ++ " > " ++ toString (22 : Nat))
    ∧ ((classifySuite "h2spec" ⟨10, 8, 2, 0⟩ ⟨10, 8, 2, 0⟩).1
        = "No regression in " ++ "h2spec" ++ ": failed count unchanged ("
            ++ toString (8 : Nat) ++ " passed, " ++ toString (2 : Nat) ++ " failed)")
    ∧ ((classifySuite "h2spec" ⟨10, 8, 2, 0⟩ ⟨10, 6, 4, 0⟩).1
        = "No regression in " ++ "h2spec" ++ ": failed count -"
            ++ toString ((4 : Nat) - 2) ++ " (" ++ toString (8 : Nat)
            ++ " passed, " ++ toString (2 : Nat) ++ " failed)") :=
  ⟨(c7_verdict_lines "h2spec" ⟨94, 70, 24, 0⟩ ⟨94, 72, 22, 0⟩).1 (by decide),
    (c7_verdict_lines "h2spec" ⟨10, 8, 2, 0⟩ ⟨10, 8, 2, 0⟩).2.1 rfl,
    (c7_verdict_lines "h2spec" ⟨10, 8, 2, 0⟩ ⟨10, 6, 4, 0⟩).2.2 (by decide)⟩

/-- Claim C4: formatting a record into the fixed summary sentence with any
word token as duration and extracting it back yields the record exactly;
in particular the spec's example text extracts to 94/70/24/0. -/
theorem c4_roundtrip (r : Results) (dur : String)
    (h1 : dur.data ≠ []) (h2 : ∀ c ∈ dur.data, isWordChar c = true) :
    extractResults (formatSummary r dur) = some r
    ∧ extractResults "**94** tests were completed in **NaNms** with **70** passed, **24** failed and **0** skipped"
        = some ⟨94, 70, 24, 0⟩ :=
  ⟨extract_format r dur h1 h2, rfl⟩

/-- Witness for C4 at the spec's example record with duration `NaN`. -/
theorem c4_roundtrip_witness :
    extractResults (formatSummary ⟨94, 70, 24, 0⟩ "NaN") = some ⟨94, 70, 24, 0⟩
    ∧ extractResults "**94** tests were completed in **NaNms** with **70** passed, **24** failed and **0** skipped"
        = some ⟨94, 70, 24, 0⟩ :=
  c4_roundtrip ⟨94, 70, 24, 0⟩ "NaN" (by decide) (by decide)

/-- Claim C10: the extraction pattern is applied as an unanchored substring
search — any text embedding a well-formed summary sentence extracts
successfully, and on a text with surrounding garbage and two embedded
sentences the numbers of the first occurrence are returned. -/
theorem c10_unanchored (pre post : List Char) (t p f s : Nat) (durData : List Char)
    (h1 : durData ≠ []) (h2 : ∀ c ∈ durData, isWordChar c = true) :
    (searchSummary (pre ++ (("**".data) ++ natDigits t
        ++ ("** tests were completed in **".data) ++ durData
        ++ ("ms** with **".data) ++ natDigits p ++ ("** passed, **".data)
        ++ natDigits f ++ ("** failed and **".data) ++ natDigits s
        ++ ("** skipped".data) ++ post))).isSome = true
    ∧ extractResults "before **1** tests were completed in **2ms** with **3** passed, **4** failed and **5** skipped and **6** tests were completed in **7ms** with **8** passed, **9** failed and **10** skipped after"
        = some ⟨1, 3, 4, 5⟩ :=
  ⟨searchSummary_isSome_append pre _ _ (matchAt_sentence t p f s durData post h1 h2),
    rfl⟩

/-- Witness for C10 with garbage on both sides of the sentence. -/
theorem c10_unanchored_witness :
    (searchSummary (("xx ".data) ++ (("**".data) ++ natDigits 1
        ++ ("** tests were completed in **".data) ++ ("q".data)
        ++ ("ms** with **".data) ++ natDigits 3 ++ ("** passed, **".data)
        ++ natDigits 4 ++ ("** failed and **".data) ++ natDigits 5
        ++ ("** skipped".data) ++ (" yy".data)))).isSome = true
    ∧ extractResults "before **1** tests were completed in **2ms** with **3** passed, **4** failed and **5** skipped and **6** tests were completed in **7ms** with **8** passed, **9** failed and **10** skipped after"
        = some ⟨1, 3, 4, 5⟩ :=
  c10_unanchored ("xx ".data) (" yy".data) 1 3 4 5 ("q".data) (by decide) (by decide)


/-- Claim C5: when a suite has no check run of its name (and every suite
before it resolved a reference), the whole run stops at that suite with
exit code 0, the verdict lines are exactly the one-per-suite lines of the
preceding suites, and the suites after it are never compared. -/
theorem c5_soft_stop (checks : List CheckRun) (nm : String) (cur : Results)
    (pre post : List (String × Results))
    (hmiss : ∀ c ∈ checks, c.name ≠ nm)
    (hpre : ∀ p2 ∈ pre, ∃ r, getReferenceResults checks p2.1 = RefOutcome.ok r) :
    runAll checks (pre ++ (nm, cur) :: post) = (0, (runAll checks pre).2)
    ∧ (runAll checks pre).2.length = pre.length := by
  have hfind : checks.find? (fun c => c.name == nm) = none := by
    rw [List.find?_eq_none]
    intro c hc
    simpa using hmiss c hc
  have hsoft : getReferenceResults checks nm
      = RefOutcome.softStop ("No " ++ jsonQuote nm ++ " check found") := by
    simp [getReferenceResults, hfind]
  constructor
  · exact processSuites_stop checks nm cur post 0 (Or.inl ⟨_, hsoft, rfl⟩) pre hpre [] false
  · simpa using processSuites_len checks pre hpre [] false

/-- Witness for C5: one resolved suite before the missing one, one suite
after it that is never reached. -/
theorem c5_soft_stop_witness :
    runAll [CheckRun.mk "a" (some "**94** tests were completed in **NaNms** with **70** passed, **24** failed and **0** skipped")]
        ([("a", Results.mk 94 70 24 0)] ++ ("b", Results.mk 1 1 0 0) :: [("c", Results.mk 1 1 0 0)])
      = (0, (runAll [CheckRun.mk "a" (some "**94** tests were completed in **NaNms** with **70** passed, **24** failed and **0** skipped")]
          [("a", Results.mk 94 70 24 0)]).2)
    ∧ (runAll [CheckRun.mk "a" (some "**94** tests were completed in **NaNms** with **70** passed, **24** failed and **0** skipped")]
        [("a", Results.mk 94 70 24 0)]).2.length
      = [("a", Results.mk 94 70 24 0)].length :=
  c5_soft_stop
    [CheckRun.mk "a" (some "**94** tests were completed in **NaNms** with **70** passed, **24** failed and **0** skipped")]
    "b" (Results.mk 1 1 0 0)
    [("a", Results.mk 94 70 24 0)] [("c", Results.mk 1 1 0 0)]
    (by decide)
    (by
      intro p2 hp2
      simp only [List.mem_singleton] at hp2
      subst hp2
      exact ⟨Results.mk 94 70 24 0, rfl⟩)

/-- Claim C9: when the matching check run has no summary text or its
summary fails the pattern (and every suite before resolved a reference),
the extractor is fatal: the run stops at that suite with exit code 1, no
verdict line is emitted for it, and in the pattern-mismatch case the
diagnostics carry the unmatched text and the expected pattern. -/
theorem c9_fatal_summary (checks : List CheckRun) (nm : String) (cur : Results)
    (check : CheckRun) (pre post : List (String × Results))
    (hfind : checks.find? (fun c => c.name == nm) = some check)
    (hbad : check.summary = none ∨ check.summary = some ""
      ∨ ∃ s, check.summary = some s ∧ extractResults s = none)
    (hpre : ∀ p2 ∈ pre, ∃ r, getReferenceResults checks p2.1 = RefOutcome.ok r) :
    (∃ lgs, getReferenceResults checks nm = RefOutcome.fatal lgs)
    ∧ runAll checks (pre ++ (nm, cur) :: post) = (1, (runAll checks pre).2)
    ∧ (runAll checks pre).2.length = pre.length
    ∧ (∀ s, check.summary = some s → s ≠ "" → extractResults s = none →
        getReferenceResults checks nm
          = RefOutcome.fatal ["Output summary didn\x27t match expected structure",
              "Structure was: " ++ regexSource,
              "Output was:\n" ++ s]) := by
  have hfatal : ∃ lgs, getReferenceResults checks nm = RefOutcome.fatal lgs := by
    rcases hbad with hb | hb | ⟨s, hb, hs⟩
    · exact ⟨["No summary found for check " ++ nm],
        by simp [getReferenceResults, hfind, hb]⟩
    · exact ⟨["No summary found for check " ++ nm],
        by simp [getReferenceResults, hfind, hb]⟩
    · by_cases hempty : s = ""
      · subst hempty
        exact ⟨["No summary found for check " ++ nm],
          by simp [getReferenceResults, hfind, hb]⟩
      · exact ⟨["Output summary didn\x27t match expected structure",
            "Structure was: " ++ regexSource, "Output was:\n" ++ s],
          by simp [getReferenceResults, hfind, hb, hempty, hs]⟩
  obtain ⟨lgs, hf⟩ := hfatal
  refine ⟨⟨lgs, hf⟩, ?_, ?_, ?_⟩
  · exact processSuites_stop checks nm cur post 1 (Or.inr ⟨lgs, hf, rfl⟩) pre hpre [] false
  · simpa using processSuites_len checks pre hpre [] false
  · intro s hs hne hex
    simp [getReferenceResults, hfind, hs, hne, hex]

/-- Witness for C9: a single suite whose check's summary does not match the
pattern. -/
theorem c9_fatal_summary_witness :
    (∃ lgs, getReferenceResults [CheckRun.mk "b" (some "bogus")] "b" = RefOutcome.fatal lgs)
    ∧ runAll [CheckRun.mk "b" (some "bogus")] ([] ++ ("b", Results.mk 1 1 0 0) :: [])
        = (1, (runAll [CheckRun.mk "b" (some "bogus")] []).2)
    ∧ (runAll [CheckRun.mk "b" (some "bogus")] []).2.length = ([] : List (String × Results)).length
    ∧ (∀ s, (CheckRun.mk "b" (some "bogus")).summary = some s → s ≠ "" →
        extractResults s = none →
        getReferenceResults [CheckRun.mk "b" (some "bogus")] "b"
          = RefOutcome.fatal ["Output summary didn\x27t match expected structure",
              "Structure was: " ++ regexSource,
              "Output was:\n" ++ s]) :=
  c9_fatal_summary [CheckRun.mk "b" (some "bogus")] "b" (Results.mk 1 1 0 0)
    (CheckRun.mk "b" (some "bogus")) [] []
    rfl
    (Or.inr (Or.inr ⟨"bogus", rfl, rfl⟩))
    (by intro p2 hp2; simp at hp2)

/-- Claim C8 counterexample: a two-group report (so the loop actually
iterates) whose second group lacks the `tests` attribute does not make the
aggregator fail with a ParseError — it returns a complete record in which
the counters fed by the bad attribute are NaN while the sums of the
numeric attributes are still present (failed = 4 and skipped = 1 here,
built from both groups), contradicting both "fails with a ParseError" and
"never a record built from the numeric groups only". -/
theorem c8_no_parse_error :
    getCurrentResults [TestSuiteNode.mk (some "5") (some "1") (some "0") (some "0"),
        TestSuiteNode.mk none (some "3") (some "0") (some "1")]
      = AggOutcome.ok ⟨JSNum.nan, JSNum.nan, JSNum.num 4, JSNum.num 1⟩ := rfl

/-- Claim C8 as amended: on documents with at least two test-groups — the
only ones the loop iterates at all; fewer throw a TypeError before any
aggregation — a missing or non-numeric attribute raises no error:
`parseInt` turns it into NaN, NaN propagates through the sums, and a
complete record is returned in which every counter the bad attribute feeds
(here `total` and `passed` for a bad `tests`) is NaN. -/
theorem c8_nan_propagation (groups : List TestSuiteNode) (ts : TestSuiteNode)
    (hlen : 2 ≤ groups.length) (hmem : ts ∈ groups)
    (hbad : jsParseInt ts.tests = JSNum.nan) :
    ∃ r : ResultsJS, getCurrentResults groups = AggOutcome.ok r
      ∧ r.total = JSNum.nan ∧ r.passed = JSNum.nan := by
  rcases groups with _ | ⟨a, _ | ⟨b, rest⟩⟩
  · simp at hlen
  · simp at hlen
  · obtain ⟨l1, l2, hsplit⟩ := List.append_of_mem hmem
    refine ⟨_, rfl, ?_⟩
    rw [hsplit, List.foldl_append, List.foldl_cons]
    exact aggregate_keeps_nan _ _
      (by simp [aggregateStep, hbad, JSNum.add_nan])
      (by simp [aggregateStep, hbad, JSNum.add_nan, JSNum.nan_sub])

/-- Witness for the amended C8 on a two-group report whose second group
lacks the `tests` attribute. -/
theorem c8_nan_propagation_witness :
    ∃ r : ResultsJS,
      getCurrentResults [TestSuiteNode.mk (some "5") (some "1") (some "0") (some "0"),
          TestSuiteNode.mk none (some "3") (some "0") (some "1")] = AggOutcome.ok r
        ∧ r.total = JSNum.nan ∧ r.passed = JSNum.nan :=
  c8_nan_propagation
    [TestSuiteNode.mk (some "5") (some "1") (some "0") (some "0"),
      TestSuiteNode.mk none (some "3") (some "0") (some "1")]
    (TestSuiteNode.mk none (some "3") (some "0") (some "1"))
    (by decide) (by simp) rfl

end H2Spec
